import Mathlib

/-!
Verification development for the deck-chores job scheduling core.

The definitions below are a shallow embedding of `deck_chores/utils.py` and
`deck_chores/jobs.py`.  Machine integers are modelled as `Nat` with explicit
reduction `% 2 ^ 32` where 32-bit overflow matters (the SHA-1 core underlying
`uuid5`), fallible code returns `Except`/`Option`, and the mutable scheduler
registry becomes explicit state passing over a `SchedulerState` value.
-/

namespace DeckChores

/-! ## Embedding of `uuid.uuid5` (CPython stdlib)

`deck_chores.utils.generate_id` calls `str(uuid5(NAMESPACE_OID, ''.join(args)))`.
`uuid5` is name-based hashing: the SHA-1 digest of the namespace bytes followed
by the UTF-8 encoded name, truncated to 16 bytes with the version (5) and
variant bits set, rendered as lowercase dashed hex.  All of it is embedded
concretely here; bytes and 32-bit words are `Nat`. -/

/-- Reduce a natural number to a 32-bit word. -/
def w32 (n : Nat) : Nat := n % 4294967296

/-- Left-rotation of a 32-bit word by `b` bits. -/
def rotl (b n : Nat) : Nat := w32 ((n <<< b) ||| (n >>> (32 - b)))

/-- UTF-8 encoding of one Unicode code point, as a list of bytes. -/
def utf8Encode (c : Nat) : List Nat :=
  if c < 128 then [c]
  else if c < 2048 then [192 ||| (c >>> 6), 128 ||| (c &&& 63)]
  else if c < 65536 then
    [224 ||| (c >>> 12), 128 ||| ((c >>> 6) &&& 63), 128 ||| (c &&& 63)]
  else
    [240 ||| (c >>> 18), 128 ||| ((c >>> 12) &&& 63),
     128 ||| ((c >>> 6) &&& 63), 128 ||| (c &&& 63)]

/-- UTF-8 bytes of a string (Python `str.encode()`). -/
def strBytes (s : String) : List Nat :=
  (s.data.map (fun c => utf8Encode c.toNat)).flatten

/-- Big-endian packing of bytes into 32-bit words, four bytes per word. -/
def bytesToWords : List Nat → List Nat
  | b0 :: b1 :: b2 :: b3 :: rest =>
      ((((b0 <<< 8) ||| b1) <<< 8 ||| b2) <<< 8 ||| b3) :: bytesToWords rest
  | _ => []

/-- SHA-1 message-schedule extension: `acc` holds the words produced so far in
reverse order; `k` more words are appended, each the 1-bit left rotation of the
xor of the words 3, 8, 14 and 16 positions back. -/
def extendW (acc : List Nat) : Nat → List Nat
  | 0 => acc.reverse
  | k + 1 =>
      extendW
        (rotl 1 (acc.getD 2 0 ^^^ acc.getD 7 0 ^^^ acc.getD 13 0 ^^^ acc.getD 15 0) :: acc) k

/-- The five 32-bit words of SHA-1 chaining state. -/
structure SHA1State where
  a : Nat
  b : Nat
  c : Nat
  d : Nat
  e : Nat
  deriving Repr, DecidableEq

/-- The 80 SHA-1 rounds over one chunk's extended schedule, starting at round
index `i`. -/
def sha1Rounds (i : Nat) : List Nat → SHA1State → SHA1State
  | [], st => st
  | wi :: ws, st =>
      let f :=
        if i < 20 then (st.b &&& st.c) ||| ((st.b ^^^ 4294967295) &&& st.d)
        else if i < 40 then st.b ^^^ st.c ^^^ st.d
        else if i < 60 then (st.b &&& st.c) ||| (st.b &&& st.d) ||| (st.c &&& st.d)
        else st.b ^^^ st.c ^^^ st.d
      let k :=
        if i < 20 then 1518500249
        else if i < 40 then 1859775393
        else if i < 60 then 2400959708
        else 3395469782
      let temp := w32 (rotl 5 st.a + f + st.e + k + wi)
      sha1Rounds (i + 1) ws ⟨temp, st.a, rotl 30 st.b, st.c, st.d⟩

/-- Process one 64-byte chunk, updating the chaining state. -/
def processChunk (h : SHA1State) (chunk : List Nat) : SHA1State :=
  let ws := extendW (bytesToWords chunk).reverse 64
  let st := sha1Rounds 0 ws h
  ⟨w32 (h.a + st.a), w32 (h.b + st.b), w32 (h.c + st.c), w32 (h.d + st.d), w32 (h.e + st.e)⟩

/-- SHA-1 padding: a `0x80` byte, zeros to 56 mod 64, then the 64-bit
big-endian bit length. -/
def sha1Pad (msg : List Nat) : List Nat :=
  let ml := 8 * msg.length
  let padlen := (119 - msg.length % 64) % 64
  msg ++ [128] ++ List.replicate padlen 0 ++
    [(ml >>> 56) &&& 255, (ml >>> 48) &&& 255, (ml >>> 40) &&& 255, (ml >>> 32) &&& 255,
     (ml >>> 24) &&& 255, (ml >>> 16) &&& 255, (ml >>> 8) &&& 255, ml &&& 255]

/-- Split a byte list into 64-byte chunks; structural recursion on a fuel
bound (each step consumes at least one byte, so `l.length` steps suffice). -/
def chunksGo : Nat → List Nat → List (List Nat)
  | _, [] => []
  | 0, _ :: _ => []
  | fuel + 1, x :: rest => ((x :: rest).take 64) :: chunksGo fuel (rest.drop 63)

/-- Split a byte list into 64-byte chunks. -/
def chunks64 (l : List Nat) : List (List Nat) :=
  chunksGo l.length l

/-- Big-endian bytes of a 32-bit word. -/
def wordBytes (w : Nat) : List Nat :=
  [(w >>> 24) &&& 255, (w >>> 16) &&& 255, (w >>> 8) &&& 255, w &&& 255]

/-- The SHA-1 digest (20 bytes) of a byte sequence. -/
def sha1 (msg : List Nat) : List Nat :=
  let st := (chunks64 (sha1Pad msg)).foldl processChunk
    ⟨1732584193, 4023233417, 2562383102, 271733878, 3285377520⟩
  wordBytes st.a ++ wordBytes st.b ++ wordBytes st.c ++ wordBytes st.d ++ wordBytes st.e

/-- Lowercase hex digit. -/
def hexChar (n : Nat) : Char :=
  if n < 10 then Char.ofNat (48 + n) else Char.ofNat (87 + n)

/-- Two lowercase hex digits of one byte. -/
def byteHex (b : Nat) : List Char := [hexChar (b >>> 4), hexChar (b &&& 15)]

/-- Render 16 bytes in the canonical dashed UUID form (`str(UUID)`). -/
def uuidFromBytes (bs : List Nat) : String :=
  let hx := (bs.map byteHex).flatten
  String.mk (hx.take 8 ++ '-' :: (hx.drop 8).take 4 ++ '-' :: (hx.drop 12).take 4 ++
    '-' :: (hx.drop 16).take 4 ++ '-' :: hx.drop 20)

/-- `uuid.uuid5`: SHA-1 of namespace bytes then UTF-8 name, truncated to 16
bytes, with version nibble forced to 5 and the RFC 4122 variant bits set. -/
def uuid5 (namespaceBytes : List Nat) (name : String) : String :=
  let digest := (sha1 (namespaceBytes ++ strBytes name)).take 16
  let digest := digest.set 6 ((digest.getD 6 0 &&& 15) ||| 80)
  let digest := digest.set 8 ((digest.getD 8 0 &&& 63) ||| 128)
  uuidFromBytes digest

/-- The bytes of `uuid.NAMESPACE_OID` (6ba7b812-9dad-11d1-80b4-00c04fd430c8). -/
def NAMESPACE_OID : List Nat :=
  [107, 167, 184, 18, 157, 173, 17, 209, 128, 180, 0, 192, 79, 212, 48, 200]

/-- `deck_chores.utils.generate_id`:
`str(uuid5(NAMESPACE_OID, ''.join(args)))`, with `''.join` embedded as
`String.join`. -/
def generate_id (args : List String) : String :=
  uuid5 NAMESPACE_OID (String.join args)

/-! ## Embedding of `deck_chores/jobs.py`

The module-level `scheduler = BackgroundScheduler()` singleton becomes explicit
state passing over `SchedulerState`; `cfg.client` (the Docker SDK client)
becomes a `DockerClient` record of the capabilities the module uses; logging
calls become returned `LogRecord` lists; a Python exception escaping a function
becomes an `Except.error` result. -/

/-- Python logging levels used by the module. -/
inductive Level where
  | debug
  | info
  | warning
  | error
  | critical
  deriving Repr, DecidableEq

/-- One emitted log record: its level and rendered message. -/
structure LogRecord where
  level : Level
  msg : String
  deriving Repr, DecidableEq

/-- Docker container status vocabulary, as used in `status` filters. -/
inductive ContainerStatus where
  | created
  | restarting
  | running
  | removing
  | paused
  | exited
  | dead
  deriving Repr, DecidableEq

/-- The capabilities of `cfg.client` that `jobs.py` uses: container name by id,
container status by id (`none` when no such container exists, making every
status filter come back empty), and `exec_run` issuing a command as a user
inside a container, returning `(exit_code, combined output bytes)`. -/
structure DockerClient where
  nameOf : String → String
  statusOf : String → Option ContainerStatus
  execRun : String → String → String → Int × String

/-- A trigger as produced by the label parser: a `(trigger class, args)` pair,
not yet bound to the scheduler. -/
structure Trigger where
  kind : String
  args : List String
  deriving Repr, DecidableEq

/-- A trigger instance as constructed in `add` by
`trigger[0](*trigger[1], timezone=definition['timezone'])`. -/
structure TriggerInstance where
  kind : String
  args : List String
  timezone : String
  deriving Repr, DecidableEq

/-- A job definition as handed to `add` by the label parser, before `add`
updates it (the `trigger`, `timezone`, `max`, `command` and `user` entries of
the definition dict). -/
structure PreDef where
  trigger : Trigger
  timezone : String
  max : Nat
  command : String
  user : String
  deriving Repr, DecidableEq

/-- The definition dict after `add`'s `definition.update({...})`: the parser
fields plus `job_name`, `job_id`, `container_id` and `container_name`.  This is
what is stored as the job's `kwargs`. -/
structure JobKwargs where
  trigger : Trigger
  timezone : String
  max : Nat
  command : String
  user : String
  job_name : String
  job_id : String
  container_id : String
  container_name : String
  deriving Repr, DecidableEq

/-- A job registered in the scheduler: its id, its keyword arguments (the
definition dict), its `max_instances` ceiling and its bound trigger. -/
structure Job where
  id : String
  kwargs : JobKwargs
  max_instances : Nat
  trigger : TriggerInstance
  deriving Repr, DecidableEq

/-- The scheduler's registry of jobs, in store order. -/
structure SchedulerState where
  jobs : List Job
  deriving Repr, DecidableEq

/-- `scheduler.get_job(job_id)`: the registered job with that id, if any. -/
def get_job (s : SchedulerState) (job_id : String) : Option Job :=
  s.jobs.find? (fun j => j.id == job_id)

/-- Registry ids are pairwise distinct — the invariant apscheduler's job store
maintains by construction (ids are its keys). -/
def NoDupIds (s : SchedulerState) : Prop :=
  (s.jobs.map Job.id).Nodup

instance (s : SchedulerState) : Decidable (NoDupIds s) :=
  inferInstanceAs (Decidable ((s.jobs.map Job.id).Nodup))

/-- Removal of the job registered under an id from the store. -/
def SchedulerState.erase (s : SchedulerState) (job_id : String) : SchedulerState :=
  ⟨s.jobs.eraseP (fun j => j.id == job_id)⟩

/-- apscheduler's `JobLookupError`, whose `str` is
`'No job by the id of %s was found' % job_id`. -/
structure JobLookupFailure where
  job_id : String
  deriving Repr, DecidableEq

/-- `scheduler.remove_job(job_id)`: removes the job registered under the id,
raising a lookup error when there is none. -/
def remove_job (s : SchedulerState) (job_id : String) :
    Except JobLookupFailure SchedulerState :=
  if s.jobs.any (fun j => j.id == job_id) then .ok (s.erase job_id)
  else .error ⟨job_id⟩

/-- `scheduler.add_job(..., id=job_id, replace_existing=True)`.  Modelled from
the spec for the external scheduling library: the job is registered under its
id, replacing wholesale any job already registered under that id (`register
(or replace) the job under that id`); a fresh id is appended to the store. -/
def add_job (s : SchedulerState) (j : Job) : SchedulerState :=
  if s.jobs.any (fun k => k.id == j.id) then
    ⟨s.jobs.map (fun k => if k.id == j.id then j else k)⟩
  else ⟨s.jobs ++ [j]⟩

/-- The job built by one iteration of `add`'s loop: the definition dict updated
with `job_name`, `job_id`, `container_id`, `container_name`, registered under
`job_id = generate_id(container_id, job_name)` with `max_instances =
definition['max']` and the trigger instantiated with the definition's
timezone. -/
def mkJob (container_id container_name job_name : String) (d : PreDef) : Job :=
  let job_id := generate_id [container_id, job_name]
  { id := job_id
    kwargs :=
      { trigger := d.trigger, timezone := d.timezone, max := d.max,
        command := d.command, user := d.user, job_name := job_name,
        job_id := job_id, container_id := container_id,
        container_name := container_name }
    max_instances := d.max
    trigger := ⟨d.trigger.kind, d.trigger.args, d.timezone⟩ }

/-- `deck_chores.jobs.add(container_id, definitions)`: the definitions dict is
embedded as an association list (Python dict keys are unique).  For each
`(job_name, definition)` pair the job id is derived from
`(container_id, job_name)`, the definition is updated in place, and the job is
registered with `replace_existing=True`.  The container name is fetched once
from the client.  The `log.debug`/`log.info` observability lines of `add` are
not modelled. -/
def add (client : DockerClient) (container_id : String)
    (definitions : List (String × PreDef)) (s : SchedulerState) : SchedulerState :=
  let container_name := client.nameOf container_id
  definitions.foldl
    (fun t p => add_job t (mkJob container_id container_name p.1 p.2)) s

/-- `deck_chores.jobs.remove(job_id)`: `scheduler.remove_job` inside
`try/except JobLookupError`, the error being logged at CRITICAL and swallowed.
Returns the resulting state and the emitted log records. -/
def remove (s : SchedulerState) (job_id : String) :
    SchedulerState × List LogRecord :=
  match remove_job s job_id with
  | .ok s' => (s', [])
  | .error e =>
      (s, [⟨Level.critical, "No job by the id of " ++ e.job_id ++ " was found"⟩])

/-- `deck_chores.jobs.get_jobs_for_container(container_id)`: the linear scan
over `scheduler.get_jobs()` collecting jobs whose `kwargs['container_id']`
equals the argument. -/
def get_jobs_for_container (s : SchedulerState) (container_id : String) :
    List Job :=
  s.jobs.filter (fun job => job.kwargs.container_id == container_id)

/-! ## The exec dispatcher -/

/-- The `AssertionError`s `exec_job` can raise during its sanity checks, in
source order: the bare `assert scheduler.get_job(job_id) is not None`, then
`AssertionError('Container is paused.')`, then
`AssertionError('Container is not running.')`. -/
inductive ExecFailure where
  | jobNotRegistered
  | containerPaused
  | containerNotRunning
  deriving Repr, DecidableEq

/-- What one `exec_job` invocation produces: the scheduler state after the
call (the not-running branch removes the job), the log records emitted, and
either the `(exit_code, output)` of `exec_run` or the raised error. -/
structure ExecOutcome where
  state : SchedulerState
  logs : List LogRecord
  result : Except ExecFailure (Int × String)
  deriving Repr

/-- `deck_chores.jobs.exec_job(**definition)`.  The docker `containers.list`
filter `{'id': cid, 'status': st}` is non-empty exactly when the container
exists with that status (`client.statusOf cid = some st`).  In the not-running
branch the preceding registry check guarantees `scheduler.remove_job` succeeds,
so it is embedded as the plain store erase. -/
def exec_job (client : DockerClient) (s : SchedulerState) (definition : JobKwargs) :
    ExecOutcome :=
  let job_id := definition.job_id
  let container_id := definition.container_id
  let command := definition.command
  let logs : List LogRecord :=
    [⟨Level.info,
      "Executing " ++ definition.job_name ++ " in " ++ definition.container_name⟩]
  if (get_job s job_id).isNone then
    ⟨s, logs, .error .jobNotRegistered⟩
  else if client.statusOf container_id = some .paused then
    ⟨s, logs, .error .containerPaused⟩
  else if client.statusOf container_id ≠ some .running then
    ⟨s.erase job_id, logs, .error .containerNotRunning⟩
  else
    ⟨s, logs, .ok (client.execRun container_id command definition.user)⟩

/-! ## The event handlers -/

/-- `deck_chores.jobs.CAPTURED_OPENER`. -/
def CAPTURED_OPENER : String := "== BEGIN of captured stdout & stderr =="

/-- `deck_chores.jobs.CAPTURED_CLOSER`. -/
def CAPTURED_CLOSER : String := "== END of captured stdout & stderr ===="

/-- `deck_chores.jobs.CAPTURED_SURROUNDING_LENGTH = len(CAPTURED_OPENER)`. -/
def CAPTURED_SURROUNDING_LENGTH : Nat := CAPTURED_OPENER.length

/-- A Python line boundary character, as recognized by `str.splitlines`. -/
def isLineBoundary (c : Char) : Bool :=
  c == '\n' || c == '\r' || c == '\x0b' || c == '\x0c' || c == '\x1c' ||
    c == '\x1d' || c == '\x1e' || c == '\x85' || c == '\u2028' || c == '\u2029'

/-- Worker for `splitlines`: `acc` holds the current line's characters in
reverse; `'\r\n'` counts as a single boundary; input ending without a boundary
still yields its final line, and an empty tail yields none. -/
def splitlinesGo : List Char → List Char → List String
  | [], acc => if acc.isEmpty then [] else [String.mk acc.reverse]
  | '\r' :: '\n' :: rest, acc => String.mk acc.reverse :: splitlinesGo rest []
  | c :: rest, acc =>
      if isLineBoundary c then String.mk acc.reverse :: splitlinesGo rest []
      else splitlinesGo rest (c :: acc)

/-- Python `str.splitlines()`. -/
def splitlines (s : String) : List String :=
  splitlinesGo s.data []

/-- An apscheduler `JobExecutionEvent` as the handlers consume it: the job id,
the dispatcher's return value `(exit_code, output bytes)` with the output
already UTF-8 decoded, the scheduled run time, and the rendered exception. -/
structure JobExecutionEvent where
  job_id : String
  retval : Int × String
  scheduled_run_time : String
  exception : String
  deriving Repr, DecidableEq

/-- An apscheduler `JobSubmissionEvent` as `on_max_instances` consumes it. -/
structure JobSubmissionEvent where
  job_id : String
  deriving Repr, DecidableEq

/-- The Python exception a handler itself raises when
`scheduler.get_job(event.job_id)` returns `None` and the handler dereferences
an attribute on it (`AttributeError: 'NoneType' object has no attribute ...`). -/
inductive HandlerFailure where
  | noneHasNoAttribute (attr : String)
  deriving Repr, DecidableEq

/-- `deck_chores.jobs.on_executed`.  Returns early with no records when the job
is gone or is the internal `container_inspection` job; otherwise logs the exit
code line at INFO for exit code 0 and CRITICAL otherwise, and a non-empty
captured output framed by the opener/closer padded with `'='` — Python's
`'=' * n` for negative `n` is the empty string, which `Nat` subtraction
reproduces. -/
def on_executed (s : SchedulerState) (event : JobExecutionEvent) :
    List LogRecord :=
  match get_job s event.job_id with
  | none => []
  | some job =>
    if job.id = "container_inspection" then []
    else
      let definition := job.kwargs
      let exit_code := event.retval.1
      let response_lines := splitlines event.retval.2
      let first : LogRecord :=
        ⟨if exit_code = 0 then Level.info else Level.critical,
         "Command " ++ definition.command ++ " in " ++ definition.container_name ++
           " finished with exit code " ++ toString exit_code⟩
      if response_lines.isEmpty then [first]
      else
        let longest_line := response_lines.foldl (fun m x => Nat.max m x.length) 0
        let pad := String.mk (List.replicate (longest_line - CAPTURED_SURROUNDING_LENGTH) '=')
        first :: ⟨Level.info, CAPTURED_OPENER ++ pad⟩ ::
          (response_lines.map (fun line => ⟨Level.info, line⟩) ++
            [⟨Level.info, CAPTURED_CLOSER ++ pad⟩])

/-- `deck_chores.jobs.on_error`: dereferences
`scheduler.get_job(event.job_id).kwargs` with no `None` guard, then logs the
identity line at CRITICAL and the exception via `log.exception` (ERROR). -/
def on_error (s : SchedulerState) (event : JobExecutionEvent) :
    Except HandlerFailure (List LogRecord) :=
  match get_job s event.job_id with
  | none => .error (.noneHasNoAttribute "kwargs")
  | some job =>
      .ok [⟨Level.critical,
            "An exception in deck-chores occured while executing " ++
              job.kwargs.job_name ++ " in " ++ job.kwargs.container_name ++ ":"⟩,
           ⟨Level.error, event.exception⟩]

/-- `deck_chores.jobs.on_missed`: dereferences
`scheduler.get_job(event.job_id).kwargs` with no `None` guard, then logs the
missed execution at WARNING. -/
def on_missed (s : SchedulerState) (event : JobExecutionEvent) :
    Except HandlerFailure (List LogRecord) :=
  match get_job s event.job_id with
  | none => .error (.noneHasNoAttribute "kwargs")
  | some job =>
      .ok [⟨Level.warning,
            "Missed execution of " ++ job.kwargs.job_name ++ " in " ++
              job.kwargs.container_name ++ " at " ++ event.scheduled_run_time⟩]

/-- `deck_chores.jobs.on_max_instances`: reads the job's name, container name
and `max_instances` (dereferencing `scheduler.get_job(event.job_id)` with no
`None` guard) and logs the skip at INFO. -/
def on_max_instances (s : SchedulerState) (event : JobSubmissionEvent) :
    Except HandlerFailure (List LogRecord) :=
  match get_job s event.job_id with
  | none => .error (.noneHasNoAttribute "kwargs")
  | some job =>
      .ok [⟨Level.info,
            "Not running " ++ job.kwargs.job_name ++ " in " ++
              job.kwargs.container_name ++ ", maximum instances of " ++
              toString job.max_instances ++ " are still running."⟩]

/-! ## The fire-submission gate -/

/-- What the scheduling library does with one trigger fire. -/
inductive FireOutcome where
  | executed
  | maxInstancesReached
  | noSuchJob
  deriving Repr, DecidableEq

/-- Modelled from the spec: the `max_instances` gate lives inside the external
scheduling library (apscheduler's `BackgroundScheduler`), not under `src/`.
Per the spec, on each trigger fire `a new fire that would exceed the ceiling is
skipped, not queued, and reported via the max-instances event`; otherwise the
dispatcher is invoked, one more instance of the job running.  `running` counts
the in-flight executions per job id. -/
def submit_fire (s : SchedulerState) (running : String → Nat) (job_id : String) :
    FireOutcome × (String → Nat) :=
  match get_job s job_id with
  | none => (.noSuchJob, running)
  | some job =>
      if job.max_instances ≤ running job_id then (.maxInstancesReached, running)
      else (.executed, fun id => if id = job_id then running id + 1 else running id)

/-! ## Concrete inputs for witnesses and counterexamples -/

/-- A docker client whose only container is `c1`, running, named `box`. -/
def exClient : DockerClient :=
  ⟨fun _ => "box", fun cid => if cid = "c1" then some .running else none,
   fun _ _ _ => (0, "ok\n")⟩

/-- A docker client whose every container is exited (stopped). -/
def exClientStopped : DockerClient :=
  ⟨fun _ => "box", fun _ => some .exited, fun _ _ _ => (0, "")⟩

/-- A docker client whose every container is paused. -/
def exClientPaused : DockerClient :=
  ⟨fun _ => "box", fun _ => some .paused, fun _ _ _ => (0, "")⟩

/-- A parsed job definition resembling the repository's `backup` example. -/
def exPreDef : PreDef :=
  ⟨⟨"IntervalTrigger", ["0", "1", "0", "0", "0"]⟩, "UTC", 1, "/bin/backup.sh", "www-data"⟩

/-- A fully updated definition dict for a job `backup` in container `c1`. -/
def exKwargs : JobKwargs :=
  ⟨⟨"IntervalTrigger", ["0", "1", "0", "0", "0"]⟩, "UTC", 1, "/bin/backup.sh",
   "www-data", "backup", "j1", "c1", "box"⟩

/-- The job registered from `exKwargs` under id `j1`. -/
def exJob : Job :=
  ⟨"j1", exKwargs, 1, ⟨"IntervalTrigger", ["0", "1", "0", "0", "0"], "UTC"⟩⟩

/-- A one-job registry. -/
def exState : SchedulerState := ⟨[exJob]⟩

/-- An execution event for `exJob` with exit code 0 and captured output `ok`. -/
def exEvent : JobExecutionEvent := ⟨"j1", (0, "ok\n"), "1945-05-08 00:01:00", "boom"⟩

/-- The exit-code log record `on_executed` emits for `exEvent` against `exJob`. -/
def exFirst : LogRecord :=
  ⟨Level.info, "Command /bin/backup.sh in box finished with exit code 0"⟩

end DeckChores

/-! ## Registry lemmas -/

namespace DeckChores

theorem mkJob_id (cid cname n : String) (d : PreDef) :
    (mkJob cid cname n d).id = generate_id [cid, n] := rfl

theorem find?_map_replace_ne (l : List Job) (j : Job) (g : String) (hg : j.id ≠ g) :
    (l.map (fun k => if k.id == j.id then j else k)).find? (fun k => k.id == g) =
      l.find? (fun k => k.id == g) := by
  induction l with
  | nil => rfl
  | cons a l ih =>
      rw [List.map_cons]
      by_cases ha : a.id = j.id
      · have e1 : (if (a.id == j.id) = true then j else a) = j := by simp [ha]
        have h2 : a.id ≠ g := by rw [ha]; exact hg
        rw [e1, List.find?_cons_of_neg _ (by simpa using hg),
          List.find?_cons_of_neg _ (by simpa using h2)]
        exact ih
      · have e1 : (if (a.id == j.id) = true then j else a) = a := by simp [ha]
        rw [e1]
        by_cases hag : a.id = g
        · rw [List.find?_cons_of_pos _ (by simpa using hag),
            List.find?_cons_of_pos _ (by simpa using hag)]
        · rw [List.find?_cons_of_neg _ (by simpa using hag),
            List.find?_cons_of_neg _ (by simpa using hag)]
          exact ih

theorem find?_map_replace_self (l : List Job) (j : Job)
    (hany : l.any (fun k => k.id == j.id) = true) :
    (l.map (fun k => if k.id == j.id then j else k)).find? (fun k => k.id == j.id) =
      some j := by
  induction l with
  | nil => simp at hany
  | cons a l ih =>
      rw [List.map_cons]
      by_cases ha : a.id = j.id
      · have e1 : (if (a.id == j.id) = true then j else a) = j := by simp [ha]
        rw [e1, List.find?_cons_of_pos _ (by simp)]
      · have e1 : (if (a.id == j.id) = true then j else a) = a := by simp [ha]
        have htail : l.any (fun k => k.id == j.id) = true := by
          simp only [List.any_cons, Bool.or_eq_true, beq_iff_eq] at hany
          rcases hany with h | h
          · exact absurd h ha
          · simpa using h
        rw [e1, List.find?_cons_of_neg _ (by simpa using ha)]
        exact ih htail

theorem find?_of_any_false (l : List Job) (g : String)
    (hany : l.any (fun k => k.id == g) = false) :
    l.find? (fun k => k.id == g) = none := by
  rw [List.find?_eq_none]
  intro x hx
  simp only [List.any_eq_false] at hany
  exact hany x hx

theorem get_job_add_job (s : SchedulerState) (j : Job) (g : String) :
    get_job (add_job s j) g = if j.id = g then some j else get_job s g := by
  unfold get_job add_job
  by_cases hany : s.jobs.any (fun k => k.id == j.id) = true
  · rw [if_pos hany]
    by_cases hg : j.id = g
    · subst hg
      rw [if_pos rfl]
      exact find?_map_replace_self s.jobs j hany
    · rw [if_neg hg]
      exact find?_map_replace_ne s.jobs j g hg
  · rw [if_neg hany]
    by_cases hg : j.id = g
    · subst hg
      have hnone : s.jobs.find? (fun k => k.id == j.id) = none :=
        find?_of_any_false s.jobs j.id (by simpa using hany)
      rw [if_pos rfl, List.find?_append, hnone,
        List.find?_cons_of_pos _ (by simp), Option.none_or]
    · have hsing : ([j].find? (fun k => k.id == g)) = none := by
        rw [List.find?_cons_of_neg _ (by simpa using hg)]
        rfl
      rw [if_neg hg, List.find?_append, hsing, Option.or_none]

theorem ids_add_job_present (s : SchedulerState) (j : Job)
    (hany : s.jobs.any (fun k => k.id == j.id) = true) :
    (add_job s j).jobs.map Job.id = s.jobs.map Job.id := by
  unfold add_job
  simp only [hany, if_pos, List.map_map]
  refine List.map_congr_left (fun k _ => ?_)
  by_cases hk : k.id = j.id
  · simp [Function.comp, hk]
  · simp [Function.comp, hk]

theorem ids_add_job_absent (s : SchedulerState) (j : Job)
    (hany : s.jobs.any (fun k => k.id == j.id) = false) :
    (add_job s j).jobs.map Job.id = s.jobs.map Job.id ++ [j.id] := by
  unfold add_job
  simp [hany]

theorem NoDupIds_add_job (s : SchedulerState) (j : Job) (h : NoDupIds s) :
    NoDupIds (add_job s j) := by
  have h' : (s.jobs.map Job.id).Nodup := h
  unfold NoDupIds
  by_cases hany : s.jobs.any (fun k => k.id == j.id) = true
  · rw [ids_add_job_present s j hany]; exact h'
  · rw [ids_add_job_absent s j (by simpa using hany)]
    have hany' : s.jobs.any (fun k => k.id == j.id) = false := by
      simpa using hany
    have hnotmem : j.id ∉ s.jobs.map Job.id := by
      intro hmem
      obtain ⟨k, hk, he⟩ := List.mem_map.mp hmem
      rw [List.any_eq_false] at hany'
      exact hany' k hk (by simp [he])
    simp [List.nodup_append, h', hnotmem]

theorem mem_ids_add_job_self (s : SchedulerState) (j : Job) :
    j.id ∈ (add_job s j).jobs.map Job.id := by
  by_cases hany : s.jobs.any (fun k => k.id == j.id) = true
  · rw [ids_add_job_present s j hany]
    simp only [List.any_eq_true, beq_iff_eq] at hany
    obtain ⟨k, hk, he⟩ := hany
    exact List.mem_map.mpr ⟨k, hk, he⟩
  · rw [ids_add_job_absent s j (by simpa using hany)]
    simp

theorem mem_ids_add_job_mono (s : SchedulerState) (j : Job) (g : String)
    (hg : g ∈ s.jobs.map Job.id) : g ∈ (add_job s j).jobs.map Job.id := by
  by_cases hany : s.jobs.any (fun k => k.id == j.id) = true
  · rwa [ids_add_job_present s j hany]
  · rw [ids_add_job_absent s j (by simpa using hany)]
    exact List.mem_append_left _ hg

theorem add_cons (client : DockerClient) (cid : String) (p : String × PreDef)
    (ps : List (String × PreDef)) (s : SchedulerState) :
    add client cid (p :: ps) s =
      add client cid ps (add_job s (mkJob cid (client.nameOf cid) p.1 p.2)) := rfl

theorem NoDupIds_add (client : DockerClient) (cid : String)
    (defs : List (String × PreDef)) :
    ∀ s : SchedulerState, NoDupIds s → NoDupIds (add client cid defs s) := by
  induction defs with
  | nil => exact fun s h => h
  | cons p ps ih =>
      intro s h
      rw [add_cons]
      exact ih _ (NoDupIds_add_job _ _ h)

theorem mem_ids_add_mono (client : DockerClient) (cid : String)
    (defs : List (String × PreDef)) (g : String) :
    ∀ s : SchedulerState, g ∈ s.jobs.map Job.id →
      g ∈ (add client cid defs s).jobs.map Job.id := by
  induction defs with
  | nil => exact fun s h => h
  | cons p ps ih =>
      intro s h
      rw [add_cons]
      exact ih _ (mem_ids_add_job_mono _ _ _ h)

theorem mem_ids_add (client : DockerClient) (cid : String)
    (defs : List (String × PreDef)) (name : String) (d : PreDef)
    (hmem : (name, d) ∈ defs) :
    ∀ s : SchedulerState, generate_id [cid, name] ∈ (add client cid defs s).jobs.map Job.id := by
  induction defs with
  | nil => cases hmem
  | cons p ps ih =>
      intro s
      rcases List.mem_cons.mp hmem with h | h
      · rw [add_cons]
        refine mem_ids_add_mono client cid ps _ _ ?_
        have hid : (mkJob cid (client.nameOf cid) p.1 p.2).id = generate_id [cid, name] := by
          subst h
          rfl
        rw [← hid]
        exact mem_ids_add_job_self _ _
      · rw [add_cons]
        exact ih h _

theorem countP_ids_eq_one (s : SchedulerState) (h : NoDupIds s) (g : String)
    (hg : g ∈ s.jobs.map Job.id) :
    s.jobs.countP (fun k => k.id == g) = 1 := by
  have he : s.jobs.countP (fun k => k.id == g) = (s.jobs.map Job.id).count g := by
    rw [List.count, List.countP_map]
    rfl
  rw [he]
  exact List.count_eq_one_of_mem h hg

theorem get_job_add_not_hit (client : DockerClient) (cid : String)
    (defs : List (String × PreDef)) (g : String)
    (hnot : ∀ p ∈ defs, generate_id [cid, p.1] ≠ g) :
    ∀ s : SchedulerState, get_job (add client cid defs s) g = get_job s g := by
  induction defs with
  | nil => exact fun s => rfl
  | cons p ps ih =>
      intro s
      rw [add_cons, ih (fun q hq => hnot q (List.mem_cons_of_mem p hq)),
        get_job_add_job, mkJob_id, if_neg (hnot p (List.mem_cons_self p ps))]

theorem get_job_add_indep (client : DockerClient) (cid : String)
    (defs : List (String × PreDef)) (g : String)
    (hhit : ∃ p ∈ defs, generate_id [cid, p.1] = g) :
    ∀ s t : SchedulerState,
      get_job (add client cid defs s) g = get_job (add client cid defs t) g := by
  induction defs with
  | nil => obtain ⟨p, hp, _⟩ := hhit; cases hp
  | cons p ps ih =>
      intro s t
      rw [add_cons, add_cons]
      by_cases hps : ∃ q ∈ ps, generate_id [cid, q.1] = g
      · exact ih hps _ _
      · push_neg at hps
        rw [get_job_add_not_hit client cid ps g hps,
          get_job_add_not_hit client cid ps g hps]
        have hp : generate_id [cid, p.1] = g := by
          rcases hhit with ⟨q, hq, hqg⟩
          rcases List.mem_cons.mp hq with h | h
          · exact h ▸ hqg
          · exact absurd hqg (hps q h)
        rw [get_job_add_job, get_job_add_job, mkJob_id, if_pos hp, if_pos hp]

theorem find?_eraseP_self (l : List Job) (g : String) (h : (l.map Job.id).Nodup) :
    (l.eraseP (fun k => k.id == g)).find? (fun k => k.id == g) = none := by
  induction l with
  | nil => rfl
  | cons a l ih =>
      simp only [List.map_cons, List.nodup_cons] at h
      by_cases ha : a.id = g
      · rw [List.eraseP_cons_of_pos (by simpa using ha)]
        rw [List.find?_eq_none]
        intro x hx
        have hnm : a.id ∉ l.map Job.id := h.1
        simp only [beq_iff_eq]
        intro hxg
        exact hnm (List.mem_map.mpr ⟨x, hx, by rw [hxg, ha]⟩)
      · rw [List.eraseP_cons_of_neg (by simpa using ha)]
        rw [List.find?_cons_of_neg _ (by simpa using ha)]
        exact ih h.2

theorem get_job_erase_self (s : SchedulerState) (g : String) (h : NoDupIds s) :
    get_job (s.erase g) g = none := by
  have h' : (s.jobs.map Job.id).Nodup := h
  unfold get_job SchedulerState.erase
  exact find?_eraseP_self s.jobs g h'

end DeckChores

/-! ## Claims -/

namespace DeckChores

set_option maxRecDepth 100000

/-- C2 counterexample: the distinct pairs `("ab", "c")` and `("a", "bc")`
receive the same job id — not by a hash collision, but because
`''.join(args)` concatenates without a separator, so both pairs hash the very
same string `"abc"`. -/
theorem generate_id_distinct_pairs_collide :
    ("ab", "c") ≠ (("a", "bc") : String × String) ∧
      generate_id ["ab", "c"] = generate_id ["a", "bc"] :=
  ⟨by decide, by
    unfold generate_id
    exact congrArg (uuid5 NAMESPACE_OID) (by decide)⟩

/-- C2 (amended): `generate_id` is a function of the separator-less
concatenation of its parts alone — part sequences with equal concatenation
always receive the same id, so distinct `(container_id, job_name)` pairs are
guaranteed distinct ids (up to hash collision) only when their concatenations
differ. -/
theorem generate_id_eq_of_join_eq (a b : List String)
    (h : String.join a = String.join b) : generate_id a = generate_id b := by
  unfold generate_id
  rw [h]

/-- Witness for the amended C2 at the colliding pairs. -/
theorem generate_id_eq_of_join_eq_witness :
    String.join ["ab", "c"] = String.join ["a", "bc"] ∧
      generate_id ["ab", "c"] = generate_id ["a", "bc"] :=
  ⟨by decide, generate_id_eq_of_join_eq ["ab", "c"] ["a", "bc"] (by decide)⟩

/-- C9: `generate_id` is deterministic — a pure function of its arguments, so
two calls on equal non-empty part sequences return the same id, and the result
is exactly the uuid5 of the fixed `NAMESPACE_OID` namespace and the joined
parts (hence stable across process restarts). -/
theorem generate_id_deterministic (a b : List String) (hne : a ≠ [])
    (hab : a = b) :
    generate_id a = generate_id b ∧
      generate_id a = uuid5 NAMESPACE_OID (String.join a) :=
  ⟨by rw [hab], rfl⟩

/-- Witness for C9 at `["c1", "backup"]`; the concrete id equals the one
CPython's `uuid.uuid5` computes for `'c1backup'`. -/
theorem generate_id_deterministic_witness :
    (["c1", "backup"] : List String) ≠ [] ∧
      generate_id ["c1", "backup"] = "55dc0bde-c6db-562a-86f3-f1989399dfa6" ∧
      (generate_id ["c1", "backup"] = generate_id ["c1", "backup"] ∧
        generate_id ["c1", "backup"] =
          uuid5 NAMESPACE_OID (String.join ["c1", "backup"])) :=
  ⟨by decide, by decide,
    generate_id_deterministic ["c1", "backup"] ["c1", "backup"] (by decide) rfl⟩

/-- C6: `get_jobs_for_container` returns exactly the registered jobs whose
stored definition's `container_id` equals the argument: a job is in the result
iff it is registered and its `kwargs['container_id']` matches. -/
theorem get_jobs_for_container_spec (s : SchedulerState) (cid : String) (j : Job) :
    j ∈ get_jobs_for_container s cid ↔ j ∈ s.jobs ∧ j.kwargs.container_id = cid := by
  unfold get_jobs_for_container
  rw [List.mem_filter]
  simp

/-- C7: `remove` deregisters the job with the given id, and when no such job is
registered the lookup error raised by `scheduler.remove_job` is caught, logged
at CRITICAL and swallowed — `remove` still returns normally with the state
unchanged. -/
theorem remove_swallows_lookup_error (s : SchedulerState) (job_id : String)
    (h : NoDupIds s) :
    get_job (remove s job_id).1 job_id = none ∧
      (get_job s job_id = none →
        remove_job s job_id = Except.error ⟨job_id⟩ ∧
          (remove s job_id).1 = s ∧
          (remove s job_id).2 =
            [⟨Level.critical, "No job by the id of " ++ job_id ++ " was found"⟩]) := by
  by_cases hany : s.jobs.any (fun j => j.id == job_id) = true
  · have hrem : remove s job_id = (s.erase job_id, []) := by
      unfold remove remove_job
      rw [if_pos hany]
    constructor
    · rw [hrem]
      exact get_job_erase_self s job_id h
    · intro hnone
      obtain ⟨k, hk, he⟩ := List.any_eq_true.mp hany
      unfold get_job at hnone
      rw [List.find?_eq_none] at hnone
      exact absurd he (by simpa using hnone k hk)
  · have hany' : s.jobs.any (fun j => j.id == job_id) = false := by simpa using hany
    have hrem : remove s job_id =
        (s, [⟨Level.critical, "No job by the id of " ++ job_id ++ " was found"⟩]) := by
      unfold remove remove_job
      rw [if_neg hany]
    refine ⟨?_, fun _ => ⟨?_, ?_, ?_⟩⟩
    · rw [hrem]
      exact find?_of_any_false s.jobs job_id hany'
    · unfold remove_job
      rw [if_neg hany]
    · rw [hrem]
    · rw [hrem]

/-- Witness for C7: removing the unknown id `nope` from the one-job registry. -/
theorem remove_swallows_lookup_error_witness :
    NoDupIds exState ∧
      (get_job (remove exState "nope").1 "nope" = none ∧
        (get_job exState "nope" = none →
          remove_job exState "nope" = Except.error ⟨"nope"⟩ ∧
            (remove exState "nope").1 = exState ∧
            (remove exState "nope").2 =
              [⟨Level.critical, "No job by the id of " ++ "nope" ++ " was found"⟩])) :=
  ⟨by decide, remove_swallows_lookup_error exState "nope" (by decide)⟩

/-- Evaluation of `exec_job` when the job is registered and the container is
paused. -/
theorem exec_job_eval_paused (client : DockerClient) (s : SchedulerState)
    (defn : JobKwargs) (hreg : (get_job s defn.job_id).isSome = true)
    (hpaused : client.statusOf defn.container_id = some ContainerStatus.paused) :
    exec_job client s defn =
      ⟨s, [⟨Level.info,
            "Executing " ++ defn.job_name ++ " in " ++ defn.container_name⟩],
        Except.error ExecFailure.containerPaused⟩ := by
  have hn : (get_job s defn.job_id).isNone = false := by
    cases hopt : get_job s defn.job_id with
    | none => rw [hopt] at hreg; simp at hreg
    | some j => rfl
  unfold exec_job
  rw [if_neg (by simp [hn]), if_pos hpaused]

/-- Evaluation of `exec_job` when the job is registered and the container is
neither paused nor running. -/
theorem exec_job_eval_not_running (client : DockerClient) (s : SchedulerState)
    (defn : JobKwargs) (hreg : (get_job s defn.job_id).isSome = true)
    (hpaused : client.statusOf defn.container_id ≠ some ContainerStatus.paused)
    (hrunning : client.statusOf defn.container_id ≠ some ContainerStatus.running) :
    exec_job client s defn =
      ⟨s.erase defn.job_id,
        [⟨Level.info,
          "Executing " ++ defn.job_name ++ " in " ++ defn.container_name⟩],
        Except.error ExecFailure.containerNotRunning⟩ := by
  have hn : (get_job s defn.job_id).isNone = false := by
    cases hopt : get_job s defn.job_id with
    | none => rw [hopt] at hreg; simp at hreg
    | some j => rfl
  unfold exec_job
  rw [if_neg (by simp [hn]), if_neg hpaused, if_pos hrunning]

/-- C1: Idempotent add — after calling `add` twice in succession with identical
definitions for the same container, each job name of the definitions mapping
has exactly one registered job, under the id `generate_id(container_id,
job_name)`; the second call replaced the first call's registration (the stored
job is the same as after one call) instead of duplicating it. -/
theorem add_twice_single_registration (client : DockerClient) (cid : String)
    (defs : List (String × PreDef)) (s : SchedulerState) (h : NoDupIds s)
    (name : String) (d : PreDef) (hmem : (name, d) ∈ defs) :
    (add client cid defs (add client cid defs s)).jobs.countP
        (fun j => j.id == generate_id [cid, name]) = 1 ∧
      get_job (add client cid defs (add client cid defs s))
          (generate_id [cid, name]) =
        get_job (add client cid defs s) (generate_id [cid, name]) := by
  constructor
  · exact countP_ids_eq_one _
      (NoDupIds_add client cid defs _ (NoDupIds_add client cid defs s h)) _
      (mem_ids_add client cid defs name d hmem _)
  · exact get_job_add_indep client cid defs _ ⟨(name, d), hmem, rfl⟩ _ _

/-- Witness for C1: adding the `backup` definition for container `c1` twice to
the empty registry. -/
theorem add_twice_single_registration_witness :
    NoDupIds (⟨[]⟩ : SchedulerState) ∧
      ("backup", exPreDef) ∈ [("backup", exPreDef)] ∧
      ((add exClient "c1" [("backup", exPreDef)]
            (add exClient "c1" [("backup", exPreDef)] ⟨[]⟩)).jobs.countP
          (fun j => j.id == generate_id ["c1", "backup"]) = 1 ∧
        get_job (add exClient "c1" [("backup", exPreDef)]
            (add exClient "c1" [("backup", exPreDef)] ⟨[]⟩))
            (generate_id ["c1", "backup"]) =
          get_job (add exClient "c1" [("backup", exPreDef)] ⟨[]⟩)
            (generate_id ["c1", "backup"])) :=
  ⟨by decide, by decide,
    add_twice_single_registration exClient "c1" [("backup", exPreDef)] ⟨[]⟩
      (by decide) "backup" exPreDef (by decide)⟩

/-- C3: dispatching `exec_job` for a registered job whose target container is
not running (and not paused) removes the job from the registry and fails with
the container-not-running assertion error, so a subsequent
`get_jobs_for_container` call for that container no longer returns the job. -/
theorem exec_job_self_heals (client : DockerClient) (s : SchedulerState)
    (defn : JobKwargs) (h : NoDupIds s)
    (hreg : (get_job s defn.job_id).isSome = true)
    (hpaused : client.statusOf defn.container_id ≠ some ContainerStatus.paused)
    (hrunning : client.statusOf defn.container_id ≠ some ContainerStatus.running) :
    (exec_job client s defn).result = Except.error ExecFailure.containerNotRunning ∧
      get_job (exec_job client s defn).state defn.job_id = none ∧
      ∀ j ∈ get_jobs_for_container (exec_job client s defn).state defn.container_id,
        j.id ≠ defn.job_id := by
  rw [exec_job_eval_not_running client s defn hreg hpaused hrunning]
  have hgone : get_job (s.erase defn.job_id) defn.job_id = none :=
    get_job_erase_self s defn.job_id h
  refine ⟨rfl, hgone, fun j hj => ?_⟩
  have hjmem : j ∈ (s.erase defn.job_id).jobs :=
    (List.mem_filter.mp hj).1
  unfold get_job at hgone
  rw [List.find?_eq_none] at hgone
  simpa using hgone j hjmem

/-- Witness for C3: the `backup` job of the one-job registry dispatched while
every container is exited. -/
theorem exec_job_self_heals_witness :
    NoDupIds exState ∧
      (get_job exState exKwargs.job_id).isSome = true ∧
      exClientStopped.statusOf exKwargs.container_id ≠ some ContainerStatus.paused ∧
      exClientStopped.statusOf exKwargs.container_id ≠ some ContainerStatus.running ∧
      ((exec_job exClientStopped exState exKwargs).result =
          Except.error ExecFailure.containerNotRunning ∧
        get_job (exec_job exClientStopped exState exKwargs).state exKwargs.job_id =
          none ∧
        ∀ j ∈ get_jobs_for_container (exec_job exClientStopped exState exKwargs).state
            exKwargs.container_id,
          j.id ≠ exKwargs.job_id) :=
  ⟨by decide, by decide, by decide, by decide,
    exec_job_self_heals exClientStopped exState exKwargs (by decide) (by decide)
      (by decide) (by decide)⟩

/-- C4: dispatching `exec_job` for a registered job whose target container is
paused fails with the container-paused assertion error — raised by the paused
check, which precedes the running check — without deregistering the job and
without issuing any exec call. -/
theorem exec_job_paused_no_exec (client : DockerClient) (s : SchedulerState)
    (defn : JobKwargs)
    (hreg : (get_job s defn.job_id).isSome = true)
    (hpaused : client.statusOf defn.container_id = some ContainerStatus.paused) :
    (exec_job client s defn).result = Except.error ExecFailure.containerPaused ∧
      (exec_job client s defn).state = s ∧
      ∀ r : Int × String, (exec_job client s defn).result ≠ Except.ok r := by
  rw [exec_job_eval_paused client s defn hreg hpaused]
  exact ⟨rfl, rfl, fun r => by simp⟩

/-- Witness for C4: the `backup` job of the one-job registry dispatched while
every container is paused. -/
theorem exec_job_paused_no_exec_witness :
    (get_job exState exKwargs.job_id).isSome = true ∧
      exClientPaused.statusOf exKwargs.container_id = some ContainerStatus.paused ∧
      ((exec_job exClientPaused exState exKwargs).result =
          Except.error ExecFailure.containerPaused ∧
        (exec_job exClientPaused exState exKwargs).state = exState ∧
        ∀ r : Int × String,
          (exec_job exClientPaused exState exKwargs).result ≠ Except.ok r) :=
  ⟨by decide, by decide,
    exec_job_paused_no_exec exClientPaused exState exKwargs (by decide) (by decide)⟩

/-- C5: with `max_instances = 1` and one execution of the job still in flight,
the next trigger fire is skipped — reported as a max-instances outcome, with
the in-flight count unchanged (not queued, not executed) and still within the
ceiling — and the `on_max_instances` handler logs the skip at INFO with the
job's name, container and ceiling. -/
theorem submit_fire_skips_at_ceiling (s : SchedulerState) (running : String → Nat)
    (job_id : String) (job : Job) (hjob : get_job s job_id = some job)
    (hmax : job.max_instances = 1) (hrun : running job_id = 1) :
    submit_fire s running job_id = (FireOutcome.maxInstancesReached, running) ∧
      (submit_fire s running job_id).2 job_id ≤ job.max_instances ∧
      on_max_instances s ⟨job_id⟩ =
        Except.ok [⟨Level.info,
          "Not running " ++ job.kwargs.job_name ++ " in " ++
            job.kwargs.container_name ++ ", maximum instances of " ++
            toString job.max_instances ++ " are still running."⟩] := by
  have hskip : submit_fire s running job_id = (FireOutcome.maxInstancesReached, running) := by
    unfold submit_fire
    rw [hjob]
    simp [hmax, hrun]
  refine ⟨hskip, ?_, ?_⟩
  · rw [hskip, hmax]
    simp [hrun]
  · unfold on_max_instances
    rw [hjob]

/-- Witness for C5: the one-job registry with one `backup` instance running. -/
theorem submit_fire_skips_at_ceiling_witness :
    get_job exState "j1" = some exJob ∧ exJob.max_instances = 1 ∧
      (fun _ : String => 1) "j1" = 1 ∧
      (submit_fire exState (fun _ => 1) "j1" =
          (FireOutcome.maxInstancesReached, fun _ => 1) ∧
        (submit_fire exState (fun _ => 1) "j1").2 "j1" ≤ exJob.max_instances ∧
        on_max_instances exState ⟨"j1"⟩ =
          Except.ok [⟨Level.info,
            "Not running " ++ exJob.kwargs.job_name ++ " in " ++
              exJob.kwargs.container_name ++ ", maximum instances of " ++
              toString exJob.max_instances ++ " are still running."⟩]) :=
  ⟨by decide, by decide, rfl,
    submit_fire_skips_at_ceiling exState (fun _ => 1) "j1" exJob (by decide) (by decide) rfl⟩

/-- C10: unlike `on_executed` (which returns silently), `on_error` and
`on_missed` dereference `scheduler.get_job(event.job_id)` without a `None`
guard, so for an event whose job id is no longer registered at handling time
the handler itself raises an `AttributeError` on `None` instead of logging. -/
theorem handlers_raise_on_unregistered_job (s : SchedulerState)
    (ev : JobExecutionEvent) (hnone : get_job s ev.job_id = none) :
    on_error s ev = Except.error (HandlerFailure.noneHasNoAttribute "kwargs") ∧
      on_missed s ev = Except.error (HandlerFailure.noneHasNoAttribute "kwargs") ∧
      on_executed s ev = [] := by
  unfold on_error on_missed on_executed
  rw [hnone]
  exact ⟨rfl, rfl, rfl⟩

/-- Witness for C10: the registry state right after `exec_job`'s self-healing
removal of the `backup` job (container stopped) — the very error event that
removal produces can no longer be logged by `on_error`/`on_missed`. -/
theorem handlers_raise_on_unregistered_job_witness :
    get_job (exec_job exClientStopped exState exKwargs).state exEvent.job_id = none ∧
      (on_error (exec_job exClientStopped exState exKwargs).state exEvent =
          Except.error (HandlerFailure.noneHasNoAttribute "kwargs") ∧
        on_missed (exec_job exClientStopped exState exKwargs).state exEvent =
          Except.error (HandlerFailure.noneHasNoAttribute "kwargs") ∧
        on_executed (exec_job exClientStopped exState exKwargs).state exEvent = []) :=
  ⟨by decide,
    handlers_raise_on_unregistered_job (exec_job exClientStopped exState exKwargs).state
      exEvent (by decide)⟩

/-- Evaluation of `on_executed` when the job is registered and is not the
internal `container_inspection` job. -/
theorem on_executed_eval (s : SchedulerState) (ev : JobExecutionEvent) (job : Job)
    (hjob : get_job s ev.job_id = some job)
    (hinsp : job.id ≠ "container_inspection") :
    on_executed s ev =
      (if (splitlines ev.retval.2).isEmpty then
        [⟨if ev.retval.1 = 0 then Level.info else Level.critical,
          "Command " ++ job.kwargs.command ++ " in " ++ job.kwargs.container_name ++
            " finished with exit code " ++ toString ev.retval.1⟩]
      else
        (⟨if ev.retval.1 = 0 then Level.info else Level.critical,
          "Command " ++ job.kwargs.command ++ " in " ++ job.kwargs.container_name ++
            " finished with exit code " ++ toString ev.retval.1⟩ : LogRecord) ::
          ⟨Level.info, CAPTURED_OPENER ++
            String.mk (List.replicate
              (((splitlines ev.retval.2).foldl (fun m x => Nat.max m x.length) 0) -
                CAPTURED_SURROUNDING_LENGTH) '=')⟩ ::
          ((splitlines ev.retval.2).map
              (fun line => (⟨Level.info, line⟩ : LogRecord)) ++
            [⟨Level.info, CAPTURED_CLOSER ++
              String.mk (List.replicate
                (((splitlines ev.retval.2).foldl (fun m x => Nat.max m x.length) 0) -
                  CAPTURED_SURROUNDING_LENGTH) '=')⟩])) := by
  unfold on_executed
  rw [hjob]
  show (if job.id = "container_inspection" then [] else _) = _
  rw [if_neg hinsp]

/-- C8 (amended): for an executed event of a registered job other than
`container_inspection`, `on_executed` logs the exit-code line at INFO iff the
exit code is 0 (CRITICAL otherwise); non-empty captured output is logged
between an opening and a closing marker line whose width is the larger of the
39-character marker base length and the length of the longest captured output
line (the `'='` padding cannot shrink the markers below their base length). -/
theorem on_executed_logs (s : SchedulerState) (ev : JobExecutionEvent) (job : Job)
    (hjob : get_job s ev.job_id = some job)
    (hinsp : job.id ≠ "container_inspection")
    (lines : List String) (hlines : lines = splitlines ev.retval.2)
    (longest : Nat)
    (hlongest : longest = lines.foldl (fun m x => Nat.max m x.length) 0)
    (pad : String)
    (hpad : pad = String.mk (List.replicate (longest - CAPTURED_SURROUNDING_LENGTH) '='))
    (first : LogRecord)
    (hfirst : first = ⟨if ev.retval.1 = 0 then Level.info else Level.critical,
      "Command " ++ job.kwargs.command ++ " in " ++ job.kwargs.container_name ++
        " finished with exit code " ++ toString ev.retval.1⟩) :
    (first.level = Level.info ↔ ev.retval.1 = 0) ∧
      (lines = [] → on_executed s ev = [first]) ∧
      (lines ≠ [] →
        on_executed s ev =
          first :: ⟨Level.info, CAPTURED_OPENER ++ pad⟩ ::
            (lines.map (fun line => (⟨Level.info, line⟩ : LogRecord)) ++
              [⟨Level.info, CAPTURED_CLOSER ++ pad⟩]) ∧
        (CAPTURED_CLOSER ++ pad).length = (CAPTURED_OPENER ++ pad).length ∧
        (CAPTURED_SURROUNDING_LENGTH ≤ longest →
          (CAPTURED_OPENER ++ pad).length = longest) ∧
        (longest < CAPTURED_SURROUNDING_LENGTH →
          (CAPTURED_OPENER ++ pad).length = CAPTURED_SURROUNDING_LENGTH)) := by
  subst hlines
  subst hlongest
  subst hpad
  subst hfirst
  refine ⟨?_, ?_, ?_⟩
  · by_cases h0 : ev.retval.1 = 0 <;> simp [h0]
  · intro hnil
    rw [on_executed_eval s ev job hjob hinsp]
    simp [hnil]
  · intro hne
    have hempty : (splitlines ev.retval.2).isEmpty = false := by
      cases h : splitlines ev.retval.2 with
      | nil => exact absurd h hne
      | cons a l => rfl
    rw [on_executed_eval s ev job hjob hinsp]
    refine ⟨?_, ?_, ?_, ?_⟩
    · rw [hempty, if_neg Bool.false_ne_true]
    · simp only [String.length_append, String.length_mk, List.length_replicate]
      rw [show CAPTURED_OPENER.length = 39 from by decide,
        show CAPTURED_CLOSER.length = 39 from by decide]
    · intro hle
      simp only [String.length_append, String.length_mk, List.length_replicate]
      rw [show CAPTURED_OPENER.length = 39 from by decide,
        show CAPTURED_SURROUNDING_LENGTH = 39 from by decide] at *
      omega
    · intro hlt
      simp only [String.length_append, String.length_mk, List.length_replicate]
      rw [show CAPTURED_OPENER.length = 39 from by decide,
        show CAPTURED_SURROUNDING_LENGTH = 39 from by decide] at *
      omega

/-- Witness for the amended C8: the `backup` job's executed event with exit
code 0 and the single captured line `ok` (shorter than the markers). -/
theorem on_executed_logs_witness :
    get_job exState exEvent.job_id = some exJob ∧
      exJob.id ≠ "container_inspection" ∧
      (["ok"] : List String) = splitlines exEvent.retval.2 ∧
      (2 : Nat) = (["ok"] : List String).foldl (fun m x => Nat.max m x.length) 0 ∧
      ("" : String) =
        String.mk (List.replicate (2 - CAPTURED_SURROUNDING_LENGTH) '=') ∧
      exFirst = ⟨if exEvent.retval.1 = 0 then Level.info else Level.critical,
        "Command " ++ exJob.kwargs.command ++ " in " ++ exJob.kwargs.container_name ++
          " finished with exit code " ++ toString exEvent.retval.1⟩ ∧
      ((exFirst.level = Level.info ↔ exEvent.retval.1 = 0) ∧
        ((["ok"] : List String) = [] → on_executed exState exEvent = [exFirst]) ∧
        ((["ok"] : List String) ≠ [] →
          on_executed exState exEvent =
            exFirst :: ⟨Level.info, CAPTURED_OPENER ++ ""⟩ ::
              ((["ok"] : List String).map
                  (fun line => (⟨Level.info, line⟩ : LogRecord)) ++
                [⟨Level.info, CAPTURED_CLOSER ++ ""⟩]) ∧
          (CAPTURED_CLOSER ++ "").length = (CAPTURED_OPENER ++ "").length ∧
          (CAPTURED_SURROUNDING_LENGTH ≤ 2 → (CAPTURED_OPENER ++ "").length = 2) ∧
          (2 < CAPTURED_SURROUNDING_LENGTH →
            (CAPTURED_OPENER ++ "").length = CAPTURED_SURROUNDING_LENGTH))) :=
  ⟨by decide, by decide, by decide, by decide, by decide, by decide,
    on_executed_logs exState exEvent exJob (by decide) (by decide) ["ok"] (by decide)
      2 (by decide) "" (by decide) exFirst (by decide)⟩

/-- C8 counterexample: an executed event with exit code 0 and captured output
`ok` — the longest captured line has length 2, but both marker lines keep
their base width 39, so the marker width does not equal the longest captured
line's length. -/
theorem on_executed_width_counterexample :
    ((on_executed exState exEvent).drop 1).map (fun r => r.msg.length) =
        [39, 2, 39] ∧
      (splitlines exEvent.retval.2).map String.length = [2] ∧
      (39 : Nat) ≠ 2 := by decide

end DeckChores

